import Mathlib

/-!
Shallow embedding of `src/lambdas/exif/handler.py` (the `exif_handler` Lambda).

Python exceptions are modelled as values of `PyErr`; code that can raise
returns `Except PyErr α`.  The two `try/except Exception` statements of the
source become explicit `match`es on such results.  The blob-store client and
the image decoder are external collaborators, modelled as an `Env` of
functions that may return any `PyErr`.  Store side effects are collected in a
trace of `StoreOp`s so that theorems can speak about what was written.
-/

set_option autoImplicit false

/-- Model of a Python exception object.  The handler's `except Exception`
clauses never inspect the kind, so a small inductive with the kinds that can
arise in the handler suffices; external collaborators may return any value. -/
inductive PyErr where
  | keyError (key : String)
  | jsonDecodeError
  | fetchError
  | storeError
  | renderError
  | nameError (name : String)
deriving DecidableEq, Repr

/-- Model of a Python value stored in the `exif_data` dict: the source stores
ints (`image.width`, `image.height`) and strings (`image.format`, `image.mode`,
rendered EXIF values). -/
inductive PyVal where
  | int (n : Nat)
  | str (s : String)
deriving DecidableEq, Repr

instance exceptDecEq {ε α : Type} [DecidableEq ε] [DecidableEq α] :
    DecidableEq (Except ε α) := fun x y =>
  match x, y with
  | .ok a, .ok b =>
    if h : a = b then isTrue (by rw [h]) else isFalse (by intro hc; cases hc; exact h rfl)
  | .ok _, .error _ => isFalse (by intro hc; cases hc)
  | .error _, .ok _ => isFalse (by intro hc; cases hc)
  | .error e, .error f =>
    if h : e = f then isTrue (by rw [h]) else isFalse (by intro hc; cases hc; exact h rfl)

/-- Model of one EXIF tag yielded by `image.getexif().items()`: PIL keys tags by
numeric identifier; `render` models `str(value)`, which may raise. -/
structure ExifTag where
  tagId : Nat
  render : Except PyErr String
deriving DecidableEq, Repr

/-- Model of the decoded image returned by `Image.open`: `width`, `height`,
`format`, `mode` are plain attribute reads; `hasGetexif` models
`hasattr(image, 'getexif')`; `exifTags` models the entries of `image.getexif()`
(the Python `if exif:` test is emptiness of this list). -/
structure ImageData where
  width : Nat
  height : Nat
  format : String
  mode : String
  hasGetexif : Bool
  exifTags : List ExifTag
deriving DecidableEq, Repr

/-- Decimal digit character, as produced by Python `str` on an int digit. -/
def digitChar (d : Nat) : Char :=
  if d = 0 then '0' else if d = 1 then '1' else if d = 2 then '2'
  else if d = 3 then '3' else if d = 4 then '4' else if d = 5 then '5'
  else if d = 6 then '6' else if d = 7 then '7' else if d = 8 then '8' else '9'

/-- Decimal digits of a natural number, most significant first; models
Python `str` on a nonnegative int. -/
def natDigits (n : Nat) : List Char :=
  if _h : n < 10 then [digitChar n]
  else natDigits (n / 10) ++ [digitChar (n % 10)]
decreasing_by exact Nat.div_lt_self (by omega) (by omega)

/-- Decimal string of a natural number; models Python `str(tag_id)`. -/
def natDecimal (n : Nat) : String := String.mk (natDigits n)

/-- Python dict assignment `d[k] = v` on an insertion-ordered association
list: replace the first entry with key `k` in place, else append. -/
def dictSet : List (String × PyVal) → String → PyVal → List (String × PyVal)
  | [], k, v => [(k, v)]
  | (k2, v2) :: rest, k, v =>
    if k2 = k then (k, v) :: rest else (k2, v2) :: dictSet rest k v

/-- Python dict lookup `d[k]` (as an `Option`): first entry with key `k`. -/
def dictGet (d : List (String × PyVal)) (k : String) : Option PyVal :=
  (d.find? (fun p => p.1 == k)).map (fun p => p.2)

/-- Body of the per-tag loop: `exif_data[str(tag_id)] = str(value)` wrapped in
`try/except` — a tag whose value fails to render is skipped. -/
def addExifTag (d : List (String × PyVal)) (tag : ExifTag) : List (String × PyVal) :=
  match tag.render with
  | .ok v => dictSet d (natDecimal tag.tagId) (PyVal.str v)
  | .error _ => d

/-- Construction of the `exif_data` dict in the source: the four base entries,
then (when the image supports `getexif` and the EXIF mapping is non-empty)
one entry per renderable tag. -/
def buildExifData (image : ImageData) : List (String × PyVal) :=
  let exif_data := [("width", PyVal.int image.width), ("height", PyVal.int image.height),
    ("format", PyVal.str image.format), ("mode", PyVal.str image.mode)]
  if image.hasGetexif then
    if image.exifTags.isEmpty then exif_data
    else image.exifTags.foldl addExifTag exif_data
  else exif_data

/-- Rendering of one `PyVal` inside the serialized JSON document. -/
def renderVal : PyVal → String
  | .int n => natDecimal n
  | .str s => "\"" ++ s ++ "\""

/-- Simplified model of `json.dumps(exif_data, indent=2)`: the exact text is
irrelevant to every claim; what matters is that serialization of int/str
values is total. -/
def dumpJson (d : List (String × PyVal)) : String :=
  "\x7b" ++ String.intercalate ", "
    (d.map (fun kv => "\"" ++ kv.1 ++ "\": " ++ renderVal kv.2)) ++ "\x7d"

/-- Split a character list at every occurrence of `c` (components between
separators, boundary components included as empty lists). -/
def splitOnChar (c : Char) : List Char → List (List Char)
  | [] => [[]]
  | x :: xs =>
    match splitOnChar c xs with
    | [] => [[]]
    | h :: t => if x = c then [] :: h :: t else (x :: h) :: t

/-- Keep a path component during `pathlib` parsing: empty components and `"."`
components are dropped. -/
def partKeep (p : List Char) : Bool := !p.isEmpty && p != ['.']

/-- Model of `PurePosixPath(s).name`: last kept component of the
slash-separated path, or the empty string. -/
def pathName (s : String) : String :=
  String.mk (((splitOnChar '/' s.data).filter partKeep).getLastD [])

/-- Index of the last `'.'` in a character list, if any; models `str.rfind`. -/
def rfindDot : List Char → Option Nat
  | [] => none
  | x :: xs =>
    match rfindDot xs with
    | some i => some (i + 1)
    | none => if x = '.' then some 0 else none

/-- Model of `PurePosixPath(s).stem` (`Path(object_key).stem` in the source):
the name with its last suffix removed when the last `'.'` sits strictly
inside the name. -/
def pathStem (s : String) : String :=
  let name := (pathName s).data
  match rfindDot name with
  | some i => if 0 < i ∧ i < name.length - 1 then String.mk (name.take i) else String.mk name
  | none => String.mk name

/-- Record of one successful `put_object` call: bucket, key, body, content type. -/
structure StoreOp where
  bucket : String
  key : String
  body : String
  contentType : String
deriving DecidableEq, Repr

/-- External collaborators: `fetch` models `download_from_s3` followed by
`Image.open` (any raised exception becomes an `Except.error`); `store` models
`upload_to_s3`'s `put_object` branch (bucket, key, body, content type). -/
structure Env where
  fetch : String → String → Except PyErr ImageData
  store : String → String → String → String → Except PyErr Unit

/-- Body of the per-record pipeline after `bucket_name`/`object_key` are in
hand: download+decode, build metadata, derive the output key, serialize and
upload.  Returns the store operation performed on success, or the first
exception raised. -/
def processRecord (env : Env) (bucket_name object_key : String) : Except PyErr StoreOp :=
  match env.fetch bucket_name object_key with
  | .error e => .error e
  | .ok image =>
    let exif_data := buildExifData image
    let filename := pathStem object_key
    let output_key := "processed/exif/" ++ filename ++ ".json"
    let body := dumpJson exif_data
    match env.store bucket_name output_key body "application/json" with
    | .error e => .error e
    | .ok _ => .ok ⟨bucket_name, output_key, body, "application/json"⟩

/-- Model of one element of the decoded inner payload's `Records` list:
`record` when `s3_event['s3']['bucket']['name']` and
`...['object']['key']` all resolve, `malformed` when any of those subscripts
raises (so the extraction fails before `object_key` is assigned). -/
inductive S3Event where
  | malformed
  | record (bucket_name object_key : String)
deriving DecidableEq, Repr

/-- Model of one outer SNS entry after
`json.loads(sns_record['Sns']['Message'])`: `Except.error` when the subscripts
or the JSON decode raise (or the payload is not a dict, so `.get` raises);
otherwise the decoded payload's optional `Records` list
(`none` models a dict with no `Records` key). -/
abbrev SnsEntry := Except PyErr (Option (List S3Event))

/-- Model of the Lambda `event` argument: `records` is the optional outer
`Records` list (`none` models an event with no `Records` key, read through
`event.get('Records', [])`). -/
structure Event where
  records : Option (List SnsEntry)

/-- Mutable function-local state of `exif_handler`: the two counters, the
`object_key` local variable (`none` while still unassigned — referencing it
then raises `UnboundLocalError`), and the trace of successful uploads. -/
structure LoopState where
  processed : Nat
  failed : Nat
  object_key : Option String
  trace : List StoreOp
deriving DecidableEq, Repr

/-- Body of the inner (per-record) `try` block.  An `Except.error` carries the
exception together with the state at the raise point; on `.record`,
`object_key` is assigned before processing begins. -/
def recordBody (env : Env) (st : LoopState) : S3Event → Except (PyErr × LoopState) LoopState
  | .malformed => .error (.keyError "s3", st)
  | .record bucket_name object_key =>
    let st1 := { st with object_key := some object_key }
    match processRecord env bucket_name object_key with
    | .ok op => .ok { st1 with processed := st1.processed + 1, trace := st1.trace ++ [op] }
    | .error e => .error (e, st1)

/-- The inner `except Exception` handler: increment `failed`, then build the
log message `f"Failed to process {object_key}: ..."` — which itself raises
`UnboundLocalError` when the local `object_key` has never been assigned. -/
def recordExcept (st : LoopState) : Except (PyErr × LoopState) LoopState :=
  let st1 := { st with failed := st.failed + 1 }
  match st1.object_key with
  | none => .error (.nameError "object_key", st1)
  | some _ => .ok st1

/-- One iteration of the inner loop: the record body guarded by the inner
`try/except`. -/
def catchRecord (env : Env) (st : LoopState) (ev : S3Event) :
    Except (PyErr × LoopState) LoopState :=
  match recordBody env st ev with
  | .ok st1 => .ok st1
  | .error (_, st1) => recordExcept st1

/-- The inner `for s3_event in sns_message.get('Records', [])` loop; an
exception escaping an iteration (the `UnboundLocalError` case) aborts the
remaining records of this entry. -/
def runRecords (env : Env) : LoopState → List S3Event → Except (PyErr × LoopState) LoopState
  | st, [] => .ok st
  | st, ev :: rest =>
    match catchRecord env st ev with
    | .ok st1 => runRecords env st1 rest
    | .error e => .error e

/-- Body of the outer (per-SNS-entry) `try` block: decode the message, then
run the inner loop over its `Records` (defaulting to the empty list). -/
def handleEntryBody (env : Env) (st : LoopState) (entry : SnsEntry) :
    Except (PyErr × LoopState) LoopState :=
  match entry with
  | .error e => .error (e, st)
  | .ok recs => runRecords env st (recs.getD [])

/-- One iteration of the outer loop: the entry body guarded by the outer
`except Exception`, which increments `failed` and continues. -/
def stepEntry (env : Env) (st : LoopState) (entry : SnsEntry) : LoopState :=
  match handleEntryBody env st entry with
  | .ok st1 => st1
  | .error (_, st1) => { st1 with failed := st1.failed + 1 }

/-- Counter initialisation at the top of `exif_handler` (`object_key` not yet
assigned, no uploads performed). -/
def initState : LoopState := ⟨0, 0, none, []⟩

/-- The returned summary dict `{'statusCode': ..., 'processed': ..., 'failed': ...}`. -/
structure Summary where
  statusCode : Nat
  processed : Nat
  failed : Nat
deriving DecidableEq, Repr

/-- The `exif_handler` function: fold the outer loop over
`event.get('Records', [])` and build the summary, also returning the trace of
successful uploads (the store side effects). -/
def exif_handler (env : Env) (event : Event) : Summary × List StoreOp :=
  let st := (event.records.getD []).foldl (stepEntry env) initState
  (⟨if st.failed = 0 then 200 else 207, st.processed, st.failed⟩, st.trace)

/-- The digit characters Python `str` can emit for an int digit. -/
def decimalChars : List Char := ['0', '1', '2', '3', '4', '5', '6', '7', '8', '9']

theorem digitChar_mem (d : Nat) : digitChar d ∈ decimalChars := by
  unfold digitChar
  split_ifs <;> simp [decimalChars]

theorem natDigits_mem (n : Nat) : ∀ c ∈ natDigits n, c ∈ decimalChars := by
  induction n using Nat.strong_induction_on with
  | _ n ih =>
    intro c hc
    unfold natDigits at hc
    split at hc
    · simp only [List.mem_singleton] at hc
      exact hc ▸ digitChar_mem n
    · rcases List.mem_append.mp hc with h | h
      · exact ih (n / 10) (Nat.div_lt_self (by omega) (by omega)) c h
      · simp only [List.mem_singleton] at h
        exact h ▸ digitChar_mem (n % 10)

theorem natDecimal_ne_width (n : Nat) : natDecimal n ≠ "width" := by
  intro h
  have hd : natDigits n = "width".data := congrArg String.data h
  have : 'w' ∈ natDigits n := by rw [hd]; simp
  have := natDigits_mem n 'w' this
  simp [decimalChars] at this

theorem natDecimal_ne_height (n : Nat) : natDecimal n ≠ "height" := by
  intro h
  have hd : natDigits n = "height".data := congrArg String.data h
  have : 'h' ∈ natDigits n := by rw [hd]; simp
  have := natDigits_mem n 'h' this
  simp [decimalChars] at this

theorem natDecimal_ne_format (n : Nat) : natDecimal n ≠ "format" := by
  intro h
  have hd : natDigits n = "format".data := congrArg String.data h
  have : 'f' ∈ natDigits n := by rw [hd]; simp
  have := natDigits_mem n 'f' this
  simp [decimalChars] at this

theorem natDecimal_ne_mode (n : Nat) : natDecimal n ≠ "mode" := by
  intro h
  have hd : natDigits n = "mode".data := congrArg String.data h
  have : 'm' ∈ natDigits n := by rw [hd]; simp
  have := natDigits_mem n 'm' this
  simp [decimalChars] at this

theorem dictGet_dictSet_ne (d : List (String × PyVal)) (k k2 : String) (v : PyVal)
    (h : k2 ≠ k) : dictGet (dictSet d k2 v) k = dictGet d k := by
  have hb2 : (k2 == k) = false := beq_eq_false_iff_ne.mpr h
  induction d with
  | nil => simp [dictSet, dictGet, List.find?, hb2]
  | cons p rest ih =>
    obtain ⟨k3, v3⟩ := p
    by_cases h3 : k3 = k2
    · subst h3
      simp only [dictSet, if_pos rfl]
      simp [dictGet, List.find?, hb2]
    · simp only [dictSet, if_neg h3]
      by_cases h4 : k3 = k
      · subst h4
        simp [dictGet, List.find?]
      · simp only [dictGet, List.find?] at ih ⊢
        have hb : (k3 == k) = false := beq_eq_false_iff_ne.mpr h4
        simp only [hb]
        exact ih

theorem foldl_addExifTag_dictGet (tags : List ExifTag) (d : List (String × PyVal))
    (k : String) (hk : ∀ n : Nat, natDecimal n ≠ k) :
    dictGet (tags.foldl addExifTag d) k = dictGet d k := by
  induction tags generalizing d with
  | nil => rfl
  | cons t rest ih =>
    simp only [List.foldl_cons]
    rw [ih]
    unfold addExifTag
    match hr : t.render with
    | .ok v => exact dictGet_dictSet_ne d k (natDecimal t.tagId) (PyVal.str v) (hk t.tagId)
    | .error e => rfl

theorem buildExifData_base_lookup (image : ImageData) :
    dictGet (buildExifData image) "width" = some (PyVal.int image.width)
  ∧ dictGet (buildExifData image) "height" = some (PyVal.int image.height)
  ∧ dictGet (buildExifData image) "format" = some (PyVal.str image.format)
  ∧ dictGet (buildExifData image) "mode" = some (PyVal.str image.mode) := by
  unfold buildExifData
  have base : ∀ k v rest, dictGet ((k, v) :: rest) k = some v := by
    intro k v rest
    simp [dictGet, List.find?]
  split
  · split
    · exact ⟨by simp [dictGet, List.find?], by simp [dictGet, List.find?],
        by simp [dictGet, List.find?], by simp [dictGet, List.find?]⟩
    · refine ⟨?_, ?_, ?_, ?_⟩
      · rw [foldl_addExifTag_dictGet _ _ _ natDecimal_ne_width]
        simp [dictGet, List.find?]
      · rw [foldl_addExifTag_dictGet _ _ _ natDecimal_ne_height]
        simp [dictGet, List.find?]
      · rw [foldl_addExifTag_dictGet _ _ _ natDecimal_ne_format]
        simp [dictGet, List.find?]
      · rw [foldl_addExifTag_dictGet _ _ _ natDecimal_ne_mode]
        simp [dictGet, List.find?]
  · exact ⟨by simp [dictGet, List.find?], by simp [dictGet, List.find?],
      by simp [dictGet, List.find?], by simp [dictGet, List.find?]⟩

theorem splitOnChar_not_mem (c : Char) (l : List Char) (h : c ∉ l) :
    splitOnChar c l = [l] := by
  induction l with
  | nil => rfl
  | cons x xs ih =>
    have hx : x ≠ c := fun hxc => h (hxc ▸ List.mem_cons_self x xs)
    have hxs : c ∉ xs := fun hm => h (List.mem_cons_of_mem x hm)
    unfold splitOnChar
    rw [ih hxs]
    simp [hx]

theorem splitOnChar_append_last (c : Char) (a nc : List Char) (h : c ∉ nc) :
    ∃ h1 t, splitOnChar c (a ++ c :: nc) = h1 :: t ++ [nc] := by
  induction a with
  | nil =>
    refine ⟨[], [], ?_⟩
    show splitOnChar c (c :: nc) = [] :: [] ++ [nc]
    unfold splitOnChar
    rw [splitOnChar_not_mem c nc h]
    simp
  | cons x xs ih =>
    obtain ⟨h1, t, ht⟩ := ih
    have hed : splitOnChar c (x :: xs ++ c :: nc)
        = if x = c then [] :: h1 :: (t ++ [nc]) else (x :: h1) :: (t ++ [nc]) := by
      show splitOnChar c (x :: (xs ++ c :: nc)) = _
      unfold splitOnChar
      rw [ht]
      rfl
    by_cases hx : x = c
    · exact ⟨[], h1 :: t, by rw [hed, if_pos hx]; simp⟩
    · exact ⟨x :: h1, t, by rw [hed, if_neg hx]; simp⟩

theorem getLastD_append_single {α : Type} (l : List α) (x : α) (d : α) :
    (l ++ [x]).getLastD d = x := by
  induction l generalizing d with
  | nil => rfl
  | cons y ys ih =>
    rw [List.cons_append, List.getLastD_cons]
    exact ih y

theorem filter_getLastD {α : Type} (p : α → Bool) (l : List α) (x : α) (d : α)
    (hx : p x = true) : ((l ++ [x]).filter p).getLastD d = x := by
  rw [List.filter_append]
  have : List.filter p [x] = [x] := by simp [List.filter, hx]
  rw [this]
  exact getLastD_append_single _ x d

theorem string_data_ne_nil (s : String) (h : s ≠ "") : s.data ≠ [] := by
  intro hd
  apply h
  cases s with
  | mk data => simp at hd; rw [hd]

theorem pathName_append (p n e : String)
    (hn0 : n ≠ "") (hn : '/' ∉ n.data) (he : '/' ∉ e.data) :
    pathName (p ++ "/" ++ n ++ "." ++ e) = String.mk (n.data ++ '.' :: e.data) := by
  have hdata : (p ++ "/" ++ n ++ "." ++ e).data = p.data ++ '/' :: (n.data ++ '.' :: e.data) := by
    simp [String.data_append]
  have hnc : '/' ∉ n.data ++ '.' :: e.data := by
    intro hm
    rcases List.mem_append.mp hm with h1 | h1
    · exact hn h1
    · rcases List.mem_cons.mp h1 with h2 | h2
      · exact absurd h2 (by decide)
      · exact he h2
  obtain ⟨h1, t, ht⟩ := splitOnChar_append_last '/' p.data (n.data ++ '.' :: e.data) hnc
  unfold pathName
  rw [hdata, ht]
  have hkeep : partKeep (n.data ++ '.' :: e.data) = true := by
    have hne : n.data ≠ [] := string_data_ne_nil n hn0
    obtain ⟨c, cs, hcons⟩ := List.exists_cons_of_ne_nil hne
    rw [hcons]
    unfold partKeep
    rw [List.cons_append, Bool.and_eq_true, bne_iff_ne]
    refine ⟨rfl, ?_⟩
    intro hEq
    have hlen := congrArg List.length hEq
    simp only [List.length_cons, List.length_append, List.length_singleton,
      List.length_nil] at hlen
    omega
  rw [show h1 :: t ++ [n.data ++ '.' :: e.data] = (h1 :: t) ++ [n.data ++ '.' :: e.data] by simp]
  rw [filter_getLastD partKeep (h1 :: t) _ [] hkeep]

theorem rfindDot_not_mem (l : List Char) (h : '.' ∉ l) : rfindDot l = none := by
  induction l with
  | nil => rfl
  | cons x xs ih =>
    have hx : x ≠ '.' := fun hxc => h (hxc ▸ List.mem_cons_self x xs)
    have hxs : '.' ∉ xs := fun hm => h (List.mem_cons_of_mem x hm)
    unfold rfindDot
    rw [ih hxs]
    simp [hx]

theorem rfindDot_append (n e : List Char) (he : '.' ∉ e) :
    rfindDot (n ++ '.' :: e) = some n.length := by
  induction n with
  | nil =>
    show rfindDot ('.' :: e) = some 0
    unfold rfindDot
    rw [rfindDot_not_mem e he]
    simp
  | cons x xs ih =>
    show rfindDot (x :: (xs ++ '.' :: e)) = some (xs.length + 1)
    unfold rfindDot
    rw [ih]

theorem take_length_append {α : Type} (l1 l2 : List α) : (l1 ++ l2).take l1.length = l1 := by
  induction l1 with
  | nil => rfl
  | cons x xs ih => simp [ih]

theorem pathStem_append (p n e : String)
    (hn0 : n ≠ "") (hn : '/' ∉ n.data)
    (he0 : e ≠ "") (he : '/' ∉ e.data) (heD : '.' ∉ e.data) :
    pathStem (p ++ "/" ++ n ++ "." ++ e) = n := by
  unfold pathStem
  rw [pathName_append p n e hn0 hn he]
  show (match rfindDot (n.data ++ '.' :: e.data) with
    | some i => if 0 < i ∧ i < (n.data ++ '.' :: e.data).length - 1
        then String.mk ((n.data ++ '.' :: e.data).take i)
        else String.mk (n.data ++ '.' :: e.data)
    | none => String.mk (n.data ++ '.' :: e.data)) = n
  rw [rfindDot_append n.data e.data heD]
  have hnlen : 0 < n.data.length := List.length_pos.mpr (string_data_ne_nil n hn0)
  have helen : 0 < e.data.length := List.length_pos.mpr (string_data_ne_nil e he0)
  have hcond : 0 < n.data.length ∧ n.data.length < (n.data ++ '.' :: e.data).length - 1 := by
    refine ⟨hnlen, ?_⟩
    simp only [List.length_append, List.length_cons]
    omega
  show (if 0 < n.data.length ∧ n.data.length < (n.data ++ '.' :: e.data).length - 1
      then String.mk ((n.data ++ '.' :: e.data).take n.data.length)
      else String.mk (n.data ++ '.' :: e.data)) = n
  rw [if_pos hcond]
  rw [take_length_append n.data ('.' :: e.data)]

theorem processRecord_ok_shape (env : Env) (b k : String) (op : StoreOp)
    (h : processRecord env b k = Except.ok op) :
    op.bucket = b ∧ op.key = "processed/exif/" ++ pathStem k ++ ".json" := by
  unfold processRecord at h
  match hf : env.fetch b k with
  | .error e => rw [hf] at h; exact absurd h (by simp)
  | .ok image =>
    rw [hf] at h
    simp only at h
    match hs : env.store b ("processed/exif/" ++ pathStem k ++ ".json")
        (dumpJson (buildExifData image)) "application/json" with
    | .error e => rw [hs] at h; exact absurd h (by simp)
    | .ok _ =>
      rw [hs] at h
      simp only [Except.ok.injEq] at h
      rw [← h]
      exact ⟨rfl, rfl⟩

/-- Invariant tying the `processed` counter to the store-operation trace. -/
def stInv (st : LoopState) : Prop := st.processed = st.trace.length

/-- The invariant read off an inner-loop result, whether the iteration
completed or an exception escaped. -/
def resInv : Except (PyErr × LoopState) LoopState → Prop
  | .ok st => stInv st
  | .error (_, st) => stInv st

theorem recordBody_inv (env : Env) (st : LoopState) (ev : S3Event) (h : stInv st) :
    resInv (recordBody env st ev) := by
  cases ev with
  | malformed => exact h
  | record b k =>
    simp only [recordBody]
    cases hp : processRecord env b k with
    | ok op =>
      simp only [resInv, stInv] at h ⊢
      simp [h]
    | error e => exact h

theorem recordExcept_inv (st : LoopState) (h : stInv st) : resInv (recordExcept st) := by
  unfold recordExcept
  cases st.object_key with
  | none => exact h
  | some k => exact h

theorem catchRecord_inv (env : Env) (st : LoopState) (ev : S3Event) (h : stInv st) :
    resInv (catchRecord env st ev) := by
  unfold catchRecord
  have hb := recordBody_inv env st ev h
  cases hr : recordBody env st ev with
  | ok st1 => rw [hr] at hb; exact hb
  | error p =>
    obtain ⟨e, st1⟩ := p
    rw [hr] at hb
    exact recordExcept_inv st1 hb

theorem runRecords_inv (env : Env) (evs : List S3Event) (st : LoopState) (h : stInv st) :
    resInv (runRecords env st evs) := by
  induction evs generalizing st with
  | nil => exact h
  | cons ev rest ih =>
    unfold runRecords
    have hc := catchRecord_inv env st ev h
    cases hr : catchRecord env st ev with
    | ok st1 => rw [hr] at hc; exact ih st1 hc
    | error p => rw [hr] at hc; exact hc

theorem stepEntry_inv (env : Env) (st : LoopState) (entry : SnsEntry) (h : stInv st) :
    stInv (stepEntry env st entry) := by
  cases entry with
  | error e => exact h
  | ok recs =>
    simp only [stepEntry, handleEntryBody]
    have hr := runRecords_inv env (recs.getD []) st h
    cases hrr : runRecords env st (recs.getD []) with
    | ok st1 =>
      rw [hrr] at hr
      exact hr
    | error p =>
      obtain ⟨e, st1⟩ := p
      rw [hrr] at hr
      exact hr

theorem foldl_stepEntry_inv (env : Env) (entries : List SnsEntry) (st : LoopState)
    (h : stInv st) : stInv (entries.foldl (stepEntry env) st) := by
  induction entries generalizing st with
  | nil => exact h
  | cons entry rest ih => exact ih (stepEntry env st entry) (stepEntry_inv env st entry h)

theorem buildExifData_drop_failed_tag (image : ImageData) (tags1 tags2 : List ExifTag)
    (t : ExifTag) (err : PyErr) (h1 : image.exifTags = tags1 ++ t :: tags2)
    (h2 : t.render = Except.error err) :
    buildExifData image = buildExifData { image with exifTags := tags1 ++ tags2 } := by
  have hskip : ∀ d, addExifTag d t = d := by
    intro d
    unfold addExifTag
    rw [h2]
  unfold buildExifData
  simp only [h1]
  cases himg : image.hasGetexif
  · simp
  · simp only [if_true]
    have hfold : ∀ d : List (String × PyVal),
        (tags1 ++ t :: tags2).foldl addExifTag d = (tags1 ++ tags2).foldl addExifTag d := by
      intro d
      rw [List.foldl_append, List.foldl_append, List.foldl_cons, hskip]
    have hne : (tags1 ++ t :: tags2).isEmpty = false := by
      cases tags1 <;> simp [List.isEmpty]
    rw [hne]
    cases h12 : (tags1 ++ tags2).isEmpty
    · simp only [Bool.false_eq_true, if_false, if_true]
      exact hfold _
    · have h12e : tags1 ++ tags2 = [] := List.isEmpty_eq_true.mp h12
      obtain ⟨ht1, ht2⟩ := List.append_eq_nil.mp h12e
      subst ht1; subst ht2
      simp [hskip]

theorem processRecord_ok_total (env : Env) (b k : String) (image : ImageData)
    (hf : env.fetch b k = Except.ok image)
    (hs : ∀ b2 k2 bd ct, env.store b2 k2 bd ct = Except.ok ()) :
    processRecord env b k = Except.ok ⟨b, "processed/exif/" ++ pathStem k ++ ".json",
      dumpJson (buildExifData image), "application/json"⟩ := by
  unfold processRecord
  rw [hf]
  simp only
  rw [hs]

theorem catchRecord_ok_of_processRecord (env : Env) (st : LoopState) (b k : String)
    (op : StoreOp) (h : processRecord env b k = Except.ok op) :
    catchRecord env st (S3Event.record b k) = Except.ok
      { st with
        object_key := some k
        processed := st.processed + 1
        trace := st.trace ++ [op] } := by
  simp only [catchRecord, recordBody]
  rw [h]

/-- Fixture image with no EXIF support. -/
def imgW : ImageData := ⟨1, 2, "JPEG", "RGB", false, []⟩

/-- Fixture environment whose fetch and store always succeed. -/
def envW : Env := ⟨fun _ _ => Except.ok imgW, fun _ _ _ _ => Except.ok ()⟩

/-- Fixture event: one SNS entry whose decoded payload holds a single change
record that lacks the `s3`/`bucket`/`object` fields, as the first record of
the invocation. -/
def evC1 : Event := ⟨some [Except.ok (some [S3Event.malformed])]⟩

/-- Fixture event: one SNS entry whose decoded payload holds a malformed first
record followed by a well-formed record. -/
def evC2 : Event :=
  ⟨some [Except.ok (some [S3Event.malformed, S3Event.record "bkt" "photos/a.jpg"])]⟩

/-- C1: the claim that each decoded change record contributes exactly 1 to
exactly one counter fails on the code.  At `evC1` the single decoded record
contributes 2 to `failed`: the inner handler increments `failed`, then its log
line references the never-assigned local `object_key`, raising
`UnboundLocalError`, which the outer handler catches and counts again — so
`processed + failed = 2` although only one record was decoded and no outer
entry failed to decode. -/
theorem exif_handler_counts_malformed_record_twice :
    exif_handler envW evC1 = (⟨207, 0, 2⟩, []) := rfl

/-- C2: the claim that a failing record never prevents the remaining records
of the same entry from being processed fails on the code.  At `evC2` the
malformed first record raises `UnboundLocalError` inside the inner `except`
handler (the local `object_key` was never assigned); the exception escalates
to the outer handler, aborting the inner loop: the following well-formed
record is never processed (`processed = 0`, empty store trace) even though
fetch and store always succeed. -/
theorem exif_handler_aborts_entry_after_malformed_first_record :
    exif_handler envW evC2 = (⟨207, 0, 2⟩, []) := rfl

/-- C3: for every input envelope the returned `statusCode` is 200 exactly when
the final `failed` count is 0, and is 207 in every other case (the status is
always one of the two). -/
theorem exif_handler_statusCode_law (env : Env) (event : Event) :
    ((exif_handler env event).1.statusCode = 200 ↔ (exif_handler env event).1.failed = 0)
  ∧ ((exif_handler env event).1.statusCode = 200 ∨ (exif_handler env event).1.statusCode = 207) := by
  unfold exif_handler
  by_cases h : ((event.records.getD []).foldl (stepEntry env) initState).failed = 0 <;>
    simp [h]

/-- C4: for every input envelope and every behaviour of the external store and
image decoder, the handler returns a summary normally: the result is a plain
pair, the `processed` counter equals the number of store operations actually
performed, and the status is one of the two success codes — every modelled
exception (including the `UnboundLocalError` raised inside the inner `except`
handler) is absorbed by a `failed` increment at record or entry scope. -/
theorem exif_handler_never_escalates (env : Env) (event : Event) :
    ∃ s ops, exif_handler env event = (s, ops) ∧ s.processed = ops.length
      ∧ (s.statusCode = 200 ∨ s.statusCode = 207) := by
  refine ⟨_, _, rfl, ?_, ?_⟩
  · exact foldl_stepEntry_inv env (event.records.getD []) initState rfl
  · by_cases h : ((event.records.getD []).foldl (stepEntry env) initState).failed = 0 <;>
      simp [h]

/-- C5: for every successfully processed change record whose object key has
the form `<path>/<name>.<ext>` (name and extension non-empty, slash-free,
extension dot-free), the sidecar is stored in the same bucket at key
`processed/exif/<name>.json`. -/
theorem processRecord_output_key (env : Env) (b p n e : String) (op : StoreOp)
    (hn0 : n ≠ "") (hn : '/' ∉ n.data)
    (he0 : e ≠ "") (he : '/' ∉ e.data) (heD : '.' ∉ e.data)
    (h : processRecord env b (p ++ "/" ++ n ++ "." ++ e) = Except.ok op) :
    op.bucket = b ∧ op.key = "processed/exif/" ++ n ++ ".json" := by
  obtain ⟨hb, hk⟩ := processRecord_ok_shape env b _ op h
  refine ⟨hb, ?_⟩
  rw [hk, pathStem_append p n e hn0 hn he0 he heD]

/-- Fixture store operation: the upload performed for object key
`photos/trip/img001.JPG` in bucket `bkt` under `envW`. -/
def opW : StoreOp :=
  ⟨"bkt", "processed/exif/img001.json", dumpJson (buildExifData imgW), "application/json"⟩

/-- Witness for C5 at the spec's own example key `photos/trip/img001.JPG`. -/
theorem processRecord_output_key_witness :
    processRecord envW "bkt" "photos/trip/img001.JPG" = Except.ok opW
  ∧ (opW.bucket = "bkt" ∧ opW.key = "processed/exif/img001.json") :=
  ⟨rfl, processRecord_output_key envW "bkt" "photos/trip" "img001" "JPG" opW
    (by decide) (by decide) (by decide) (by decide) (by decide) (by rfl)⟩

/-- Test for "the metadata value is a string": true exactly on `PyVal.str`. -/
def isStrVal : Option PyVal → Bool
  | some (PyVal.str _) => true
  | _ => false

/-- Fixture image for the C6 counterexample. -/
def imgC6 : ImageData := ⟨640, 480, "JPEG", "RGB", false, []⟩

/-- C6 counterexample: the claim says the metadata mapping maps string keys to
string values, but for a concrete decoded image the value stored under
`"width"` is the integer `640` (the source stores `image.width` itself, an
int, not its string rendering), so the mapping is not string-valued. -/
theorem width_value_is_not_a_string :
    isStrVal (dictGet (buildExifData imgC6) "width") = false
  ∧ dictGet (buildExifData imgC6) "width" = some (PyVal.int 640) := ⟨rfl, rfl⟩

/-- C6 amended: for every decoded image the metadata mapping always contains
entries for `width`, `height`, `format` and `mode` derived from the image,
regardless of EXIF presence — with `width`/`height` held as integers and
`format`/`mode` as strings (not all four as strings). -/
theorem metadata_always_contains_base_entries (image : ImageData) :
    dictGet (buildExifData image) "width" = some (PyVal.int image.width)
  ∧ dictGet (buildExifData image) "height" = some (PyVal.int image.height)
  ∧ dictGet (buildExifData image) "format" = some (PyVal.str image.format)
  ∧ dictGet (buildExifData image) "mode" = some (PyVal.str image.mode) :=
  buildExifData_base_lookup image

/-- C7: a decoded image with no EXIF data (no `getexif` capability, or an
empty EXIF mapping) yields exactly the four base entries and nothing else. -/
theorem buildExifData_no_exif_exact (image : ImageData)
    (h : image.hasGetexif = false ∨ image.exifTags = []) :
    buildExifData image = [("width", PyVal.int image.width),
      ("height", PyVal.int image.height), ("format", PyVal.str image.format),
      ("mode", PyVal.str image.mode)] := by
  unfold buildExifData
  rcases h with h | h
  · simp [h]
  · cases himg : image.hasGetexif <;> simp [h, himg]

/-- Witness for C7 at a concrete image without EXIF support. -/
theorem buildExifData_no_exif_witness :
    (imgW.hasGetexif = false ∨ imgW.exifTags = [])
  ∧ buildExifData imgW = [("width", PyVal.int 1), ("height", PyVal.int 2),
      ("format", PyVal.str "JPEG"), ("mode", PyVal.str "RGB")] :=
  ⟨Or.inl rfl, buildExifData_no_exif_exact imgW (Or.inl rfl)⟩

/-- C8: a tag whose value fails to render is skipped alone — the metadata
mapping equals the one built without that tag, so every other tag is still
present — and the record is still counted as `processed`: with the fetch
yielding such an image and a functioning store, the per-record step increments
`processed` (never `failed`) and appends the upload to the trace. -/
theorem tag_render_failure_isolated (image : ImageData) (tags1 tags2 : List ExifTag)
    (t : ExifTag) (err : PyErr)
    (h1 : image.exifTags = tags1 ++ t :: tags2) (h2 : t.render = Except.error err) :
    buildExifData image = buildExifData { image with exifTags := tags1 ++ tags2 }
  ∧ ∀ (env : Env) (st : LoopState) (b k : String),
      env.fetch b k = Except.ok image →
      (∀ b2 k2 bd ct, env.store b2 k2 bd ct = Except.ok ()) →
      ∃ op, catchRecord env st (S3Event.record b k) = Except.ok
        { st with
          object_key := some k
          processed := st.processed + 1
          trace := st.trace ++ [op] } := by
  refine ⟨buildExifData_drop_failed_tag image tags1 tags2 t err h1 h2, ?_⟩
  intro env st b k hf hs
  exact ⟨_, catchRecord_ok_of_processRecord env st b k _ (processRecord_ok_total env b k image hf hs)⟩

/-- Fixture tag that renders successfully. -/
def tagOk : ExifTag := ⟨271, Except.ok "Canon"⟩

/-- Fixture tag whose value rendering raises. -/
def tagBad : ExifTag := ⟨272, Except.error PyErr.renderError⟩

/-- Fixture image carrying one renderable and one unrenderable EXIF tag. -/
def imgC8 : ImageData := ⟨4, 3, "JPEG", "RGB", true, [tagOk, tagBad]⟩

/-- Fixture environment fetching `imgC8` with an always-succeeding store. -/
def envC8 : Env := ⟨fun _ _ => Except.ok imgC8, fun _ _ _ _ => Except.ok ()⟩

/-- Witness for C8: concrete image with one bad tag among good ones. -/
theorem tag_render_failure_isolated_witness :
    imgC8.exifTags = [tagOk] ++ tagBad :: []
  ∧ buildExifData imgC8 = buildExifData { imgC8 with exifTags := [tagOk] ++ [] }
  ∧ ∃ op, catchRecord envC8 initState (S3Event.record "bkt" "k.jpg") = Except.ok
      { initState with
        object_key := some "k.jpg"
        processed := initState.processed + 1
        trace := initState.trace ++ [op] } :=
  ⟨rfl,
    (tag_render_failure_isolated imgC8 [tagOk] [] tagBad PyErr.renderError rfl rfl).1,
    (tag_render_failure_isolated imgC8 [tagOk] [] tagBad PyErr.renderError rfl rfl).2
      envC8 initState "bkt" "k.jpg" rfl (fun _ _ _ _ => rfl)⟩

/-- C9: an EXIF entry's key is the decimal rendering of its numeric tag
identifier, which is never one of the four base keys, so the base values set
from the image always survive into the final metadata mapping. -/
theorem exif_tag_keys_never_base (n : Nat) (image : ImageData) :
    (["width", "height", "format", "mode"].contains (natDecimal n) = false)
  ∧ dictGet (buildExifData image) "width" = some (PyVal.int image.width)
  ∧ dictGet (buildExifData image) "height" = some (PyVal.int image.height)
  ∧ dictGet (buildExifData image) "format" = some (PyVal.str image.format)
  ∧ dictGet (buildExifData image) "mode" = some (PyVal.str image.mode) := by
  obtain ⟨h1, h2, h3, h4⟩ := buildExifData_base_lookup image
  refine ⟨?_, h1, h2, h3, h4⟩
  have hb : ∀ s : String, natDecimal n ≠ s → (natDecimal n == s) = false :=
    fun s hs => beq_eq_false_iff_ne.mpr hs
  simp [List.contains, List.elem, hb _ (natDecimal_ne_width n),
    hb _ (natDecimal_ne_height n), hb _ (natDecimal_ne_format n),
    hb _ (natDecimal_ne_mode n)]

/-- C10: an event with no outer `Records` key yields the summary
`{statusCode: 200, processed: 0, failed: 0}` with no store operations, and a
decoded inner payload with no `Records` key leaves the loop state (both
counters included) unchanged. -/
theorem exif_handler_missing_records (env : Env) :
    exif_handler env ⟨none⟩ = (⟨200, 0, 0⟩, [])
  ∧ ∀ st : LoopState, stepEntry env st (Except.ok none) = st :=
  ⟨rfl, fun _ => rfl⟩
